import Mathlib

/-!
# Verification of the ZATCA e-invoicing pipeline

Shallow embedding of the invoice compliance and submission pipeline:
the tax calculator (`src/scripts/tax_calc.py`), the TLV/QR encoder
(`src/scripts/zatca_invoice_generator.py`), and the batch orchestrator
with its XML builder (`src/services/zakat.py`).

Python `Decimal` values are embedded as rationals (`ℚ`): `Decimal`
arithmetic on the operand sizes used here is exact, and
`quantize(Decimal("0.01"), rounding=ROUND_HALF_UP)` is embedded as
`round2` below (round half away from zero, which coincides with
`ROUND_HALF_UP` on `Decimal`).
-/

namespace Zatca

/-- Round a rational to 2 decimal places with `ROUND_HALF_UP`
(half away from zero), embedding
`Decimal.quantize(Decimal("0.01"), rounding=ROUND_HALF_UP)`. -/
def round2 (x : ℚ) : ℚ :=
  if 0 ≤ x then (⌊x * 100 + 1/2⌋ : ℚ) / 100
  else -((⌊-(x * 100) + 1/2⌋ : ℚ) / 100)

/-- Embedding of `tax_calc` (`src/scripts/tax_calc.py`):
`tax = total * ratio`; `seller_tax = tax * seller_ratio`;
`net_total = total - seller_tax - tax`; each output quantized
independently to 2 decimal places with `ROUND_HALF_UP`. -/
def tax_calc (total ratio seller_ratio : ℚ) : ℚ × ℚ × ℚ :=
  let tax := total * ratio
  let seller_tax := tax * seller_ratio
  let net_total := total - seller_tax - tax
  (round2 tax, round2 seller_tax, round2 net_total)

theorem round2_zero : round2 0 = 0 := by
  simp [round2]
  norm_num

/-- The half-up rounding error is at most half a cent. -/
theorem abs_round2_sub_le (x : ℚ) : |round2 x - x| ≤ 1/200 := by
  have key : ∀ y : ℚ, |(⌊y + 1/2⌋ : ℚ) - y| ≤ 1/2 := by
    intro y
    rw [abs_le]
    constructor
    · have h := Int.lt_floor_add_one (y + 1/2)
      linarith
    · have h := Int.floor_le (y + 1/2)
      linarith
  unfold round2
  by_cases h : 0 ≤ x
  · simp only [if_pos h]
    have := key (x * 100)
    rw [abs_le] at this ⊢
    constructor <;> [linarith; linarith]
  · simp only [if_neg h]
    have := key (-(x * 100))
    rw [abs_le] at this ⊢
    constructor <;> [linarith; linarith]

/-- `round2` always lands on an exact 2-decimal grid point. -/
theorem round2_two_decimals (x : ℚ) : ∃ k : ℤ, round2 x = (k : ℚ) / 100 := by
  unfold round2
  by_cases h : 0 ≤ x
  · exact ⟨⌊x * 100 + 1/2⌋, by simp [h]⟩
  · refine ⟨-⌊-(x * 100) + 1/2⌋, ?_⟩
    simp only [if_neg h]
    push_cast
    ring

/-- C4: for all inputs, `tax_calc` returns `round2(total*ratio)`,
`round2((total*ratio)*seller_ratio)` and
`round2(total - seller_tax_unrounded - tax_unrounded)`, each rounded
independently with round-half-up; in particular
`tax_calc 100 0.15 0.15 = (15.00, 2.25, 82.75)`, and `total = 0`
yields all-zero outputs. -/
theorem tax_calc_formula :
    (∀ t r s : ℚ, tax_calc t r s =
      (round2 (t * r), round2 (t * r * s), round2 (t - t * r * s - t * r))) ∧
    tax_calc 100 (15/100) (15/100) = (15, 225/100, 8275/100) ∧
    (∀ r s : ℚ, tax_calc 0 r s = (0, 0, 0)) := by
  refine ⟨fun t r s => rfl, ?_, ?_⟩
  · norm_num [tax_calc, round2]
  · intro r s
    norm_num [tax_calc, round2]

/-- C9 counterexample: at `total = 0.025`, `ratio = 0.2`,
`seller_ratio = 1` (all nonnegative decimals), the three outputs are
`(0.01, 0.01, 0.02)`, summing to `0.04`, which misses the input total
by `0.015 > 0.01`: the outputs do not sum back to the total within
one cent. -/
theorem tax_calc_sum_exceeds_one_cent :
    (0:ℚ) ≤ 25/1000 ∧
    tax_calc (25/1000) (2/10) 1 = (1/100, 1/100, 2/100) ∧
    ¬ |(tax_calc (25/1000) (2/10) 1).1 + (tax_calc (25/1000) (2/10) 1).2.1 +
        (tax_calc (25/1000) (2/10) 1).2.2 - 25/1000| ≤ 1/100 := by
  refine ⟨by norm_num, by norm_num [tax_calc, round2], ?_⟩
  have h : tax_calc (25/1000) (2/10) 1 = (1/100, 1/100, 2/100) := by
    norm_num [tax_calc, round2]
  rw [h]
  norm_num [abs_le]

/-- C9 amended: for all `(total, ratio, seller_ratio)` with
`total ≥ 0`, the three outputs of `tax_calc` sum back to the input
total to within three half-cents (`0.015`, tight, since each of the
three values is rounded independently by up to half a cent), and each
output lies exactly on the 2-decimal-place grid. -/
theorem tax_calc_sum_within_three_half_cents (t r s : ℚ) (h : 0 ≤ t) :
    |(tax_calc t r s).1 + (tax_calc t r s).2.1 + (tax_calc t r s).2.2 - t| ≤ 3/200 ∧
    (∃ k : ℤ, (tax_calc t r s).1 = (k : ℚ) / 100) ∧
    (∃ k : ℤ, (tax_calc t r s).2.1 = (k : ℚ) / 100) ∧
    (∃ k : ℤ, (tax_calc t r s).2.2 = (k : ℚ) / 100) := by
  refine ⟨?_, round2_two_decimals _, round2_two_decimals _, round2_two_decimals _⟩
  have h1 := abs_round2_sub_le (t * r)
  have h2 := abs_round2_sub_le (t * r * s)
  have h3 := abs_round2_sub_le (t - t * r * s - t * r)
  show |round2 (t * r) + round2 (t * r * s) + round2 (t - t * r * s - t * r) - t| ≤ 3/200
  rw [abs_le] at h1 h2 h3 ⊢
  constructor <;> linarith

/-- Witness for `tax_calc_sum_within_three_half_cents` at
`(100, 0.15, 0.15)`. -/
theorem tax_calc_sum_within_three_half_cents_witness :
    |(tax_calc 100 (15/100) (15/100)).1 + (tax_calc 100 (15/100) (15/100)).2.1 +
      (tax_calc 100 (15/100) (15/100)).2.2 - 100| ≤ 3/200 ∧
    (∃ k : ℤ, (tax_calc 100 (15/100) (15/100)).1 = (k : ℚ) / 100) ∧
    (∃ k : ℤ, (tax_calc 100 (15/100) (15/100)).2.1 = (k : ℚ) / 100) ∧
    (∃ k : ℤ, (tax_calc 100 (15/100) (15/100)).2.2 = (k : ℚ) / 100) :=
  tax_calc_sum_within_three_half_cents 100 (15/100) (15/100) (by norm_num)

/-! ## TLV / QR encoder (`src/scripts/zatca_invoice_generator.py`)

Byte strings are embedded as `List Nat` with every element `< 256`.
`value.encode("utf-8")` is embedded by `utf8Bytes` below, which
computes the standard UTF-8 byte sequence of the string's scalar
values, exactly as Python produces it. -/

/-- UTF-8 encoding of one Unicode scalar value, as produced by
Python's `str.encode("utf-8")`. -/
def utf8Char (c : Char) : List Nat :=
  let n := c.toNat
  if n < 128 then [n]
  else if n < 2048 then [192 + n / 64, 128 + n % 64]
  else if n < 65536 then [224 + n / 4096, 128 + n / 64 % 64, 128 + n % 64]
  else [240 + n / 262144, 128 + n / 4096 % 64, 128 + n / 64 % 64, 128 + n % 64]

/-- The UTF-8 byte sequence of a string (`value.encode("utf-8")`). -/
def utf8Bytes (s : String) : List Nat := s.data.flatMap utf8Char

/-- Embedding of `ZATCAInvoiceGenerator.encode_tlv`:
`bytes([tag]) + bytes([len(value_bytes)]) + value_bytes`.
`bytes([n])` raises `ValueError` when `n` is outside `range(0, 256)`,
so a tag or a length byte that does not fit in one byte is embedded
as `none` (the call raises instead of returning). -/
def encode_tlv (tag : Nat) (value : String) : Option (List Nat) :=
  let value_bytes := utf8Bytes value
  if tag < 256 ∧ value_bytes.length < 256 then
    some (tag :: value_bytes.length :: value_bytes)
  else none

/-- Modelled from the spec: decoding one UTF-8 step — the repository
has no TLV decoder under `src/`, only the encoder; the spec's
round-trip property (§8) requires a decoder, modelled here as the
standard UTF-8 byte-sequence decoder. Reads one scalar value from the
front of the byte stream and returns it with the remaining bytes. -/
def utf8DecodeStep : List Nat → Option (Nat × List Nat)
  | [] => none
  | b0 :: rest =>
    if b0 < 128 then some (b0, rest)
    else if b0 < 192 then none
    else if b0 < 224 then
      match rest with
      | b1 :: rest2 =>
        if 128 ≤ b1 ∧ b1 < 192 then some ((b0 - 192) * 64 + (b1 - 128), rest2) else none
      | [] => none
    else if b0 < 240 then
      match rest with
      | b1 :: b2 :: rest3 =>
        if (128 ≤ b1 ∧ b1 < 192) ∧ (128 ≤ b2 ∧ b2 < 192) then
          some ((b0 - 224) * 4096 + (b1 - 128) * 64 + (b2 - 128), rest3)
        else none
      | _ => none
    else
      match rest with
      | b1 :: b2 :: b3 :: rest4 =>
        if (128 ≤ b1 ∧ b1 < 192) ∧ (128 ≤ b2 ∧ b2 < 192) ∧ (128 ≤ b3 ∧ b3 < 192) then
          some ((b0 - 240) * 262144 + (b1 - 128) * 4096 + (b2 - 128) * 64 + (b3 - 128), rest4)
        else none
      | _ => none

/-- Modelled from the spec: full UTF-8 decoding, iterating
`utf8DecodeStep`; the fuel argument only bounds the number of
decoded characters (one byte per character suffices). -/
def utf8DecodeAux : Nat → List Nat → Option (List Char)
  | _, [] => some []
  | 0, _ :: _ => none
  | Nat.succ fuel, b0 :: rest =>
    match utf8DecodeStep (b0 :: rest) with
    | none => none
    | some (n, remaining) => (utf8DecodeAux fuel remaining).map (fun cs => Char.ofNat n :: cs)

/-- Modelled from the spec: decode a UTF-8 byte sequence back to a
character list. -/
def utf8Decode (l : List Nat) : Option (List Char) := utf8DecodeAux l.length l

/-- Modelled from the spec: decoder for a single TLV field — reads
the tag byte and the length byte, checks that exactly `length` value
bytes follow, and decodes them as UTF-8. -/
def decode_tlv : List Nat → Option (Nat × String)
  | tag :: len :: rest =>
    if rest.length = len then (utf8Decode rest).map (fun cs => (tag, String.mk cs))
    else none
  | _ => none

theorem utf8Char_ne_nil (c : Char) : utf8Char c ≠ [] := by
  unfold utf8Char
  dsimp only
  split_ifs <;> simp

theorem utf8DecodeStep_utf8Char (c : Char) (bs : List Nat) :
    utf8DecodeStep (utf8Char c ++ bs) = some (c.toNat, bs) := by
  unfold utf8Char
  by_cases h1 : c.toNat < 128
  · simp only [if_pos h1, List.cons_append, List.nil_append]
    unfold utf8DecodeStep
    dsimp only
    rw [if_pos h1]
  · by_cases h2 : c.toNat < 2048
    · simp only [if_neg h1, if_pos h2, List.cons_append, List.nil_append]
      unfold utf8DecodeStep
      dsimp only
      rw [if_neg (by omega), if_neg (by omega), if_pos (by omega),
        if_pos (⟨by omega, by omega⟩ : 128 ≤ 128 + c.toNat % 64 ∧ 128 + c.toNat % 64 < 192)]
      have e : (192 + c.toNat / 64 - 192) * 64 + (128 + c.toNat % 64 - 128) = c.toNat := by
        omega
      rw [e]
    · by_cases h3 : c.toNat < 65536
      · simp only [if_neg h1, if_neg h2, if_pos h3, List.cons_append, List.nil_append]
        unfold utf8DecodeStep
        dsimp only
        rw [if_neg (by omega), if_neg (by omega), if_neg (by omega), if_pos (by omega),
          if_pos (⟨⟨by omega, by omega⟩, by omega, by omega⟩ :
            (128 ≤ 128 + c.toNat / 64 % 64 ∧ 128 + c.toNat / 64 % 64 < 192) ∧
            (128 ≤ 128 + c.toNat % 64 ∧ 128 + c.toNat % 64 < 192))]
        have e : (224 + c.toNat / 4096 - 224) * 4096 + (128 + c.toNat / 64 % 64 - 128) * 64 +
            (128 + c.toNat % 64 - 128) = c.toNat := by omega
        rw [e]
      · simp only [if_neg h1, if_neg h2, if_neg h3, List.cons_append, List.nil_append]
        unfold utf8DecodeStep
        dsimp only
        rw [if_neg (by omega), if_neg (by omega), if_neg (by omega), if_neg (by omega),
          if_pos (⟨⟨by omega, by omega⟩, ⟨by omega, by omega⟩, by omega, by omega⟩ :
            (128 ≤ 128 + c.toNat / 4096 % 64 ∧ 128 + c.toNat / 4096 % 64 < 192) ∧
            (128 ≤ 128 + c.toNat / 64 % 64 ∧ 128 + c.toNat / 64 % 64 < 192) ∧
            (128 ≤ 128 + c.toNat % 64 ∧ 128 + c.toNat % 64 < 192))]
        have e : (240 + c.toNat / 262144 - 240) * 262144 +
            (128 + c.toNat / 4096 % 64 - 128) * 4096 +
            (128 + c.toNat / 64 % 64 - 128) * 64 + (128 + c.toNat % 64 - 128) = c.toNat := by
          omega
        rw [e]

theorem utf8DecodeAux_flatMap (cl : List Char) (fuel : Nat) (h : cl.length ≤ fuel) :
    utf8DecodeAux fuel (cl.flatMap utf8Char) = some cl := by
  induction cl generalizing fuel with
  | nil => cases fuel <;> rfl
  | cons c tl ih =>
    obtain ⟨f, rfl⟩ : ∃ f, fuel = f + 1 := by
      cases fuel
      · simp at h
      · exact ⟨_, rfl⟩
    rw [List.flatMap_cons]
    obtain ⟨b0, bsx, hb⟩ : ∃ b0 bsx, utf8Char c = b0 :: bsx := by
      cases hc : utf8Char c with
      | nil => exact absurd hc (utf8Char_ne_nil c)
      | cons x xs => exact ⟨x, xs, rfl⟩
    have hcons : utf8Char c ++ tl.flatMap utf8Char = b0 :: (bsx ++ tl.flatMap utf8Char) := by
      rw [hb]; rfl
    rw [hcons]
    have hstep : utf8DecodeStep (b0 :: (bsx ++ tl.flatMap utf8Char)) =
        some (c.toNat, tl.flatMap utf8Char) := by
      rw [← hcons, utf8DecodeStep_utf8Char]
    rw [utf8DecodeAux, hstep]
    dsimp only
    rw [ih f (by simpa using h)]
    simp [Char.ofNat_toNat]

/-- Decoding the UTF-8 bytes of a string gives its characters back. -/
theorem utf8Decode_utf8Bytes (s : String) : utf8Decode (utf8Bytes s) = some s.data := by
  unfold utf8Decode utf8Bytes
  apply utf8DecodeAux_flatMap
  induction s.data with
  | nil => simp
  | cons c tl ih =>
    rw [List.flatMap_cons]
    have hne := utf8Char_ne_nil c
    have hlen : 1 ≤ (utf8Char c).length := by
      cases hc : utf8Char c with
      | nil => exact absurd hc hne
      | cons x xs => simp
    simp only [List.length_cons, List.length_append]
    omega

/-- C5: for every tag byte and every string whose UTF-8 byte length
is at most 255, `encode_tlv` returns `[tag][length][value-bytes]` and
decoding those bytes yields `(tag, value)` back exactly; for every
string whose UTF-8 byte length exceeds 255, `encode_tlv` raises
(embedded as `none`) instead of wrapping or truncating the length
byte. -/
theorem encode_tlv_roundtrip (tag : Nat) (value long : String) (htag : tag < 256)
    (hlen : (utf8Bytes value).length ≤ 255) (hlong : 255 < (utf8Bytes long).length) :
    (encode_tlv tag value = some (tag :: (utf8Bytes value).length :: utf8Bytes value) ∧
      decode_tlv (tag :: (utf8Bytes value).length :: utf8Bytes value) = some (tag, value)) ∧
    encode_tlv tag long = none := by
  refine ⟨⟨?_, ?_⟩, ?_⟩
  · unfold encode_tlv
    rw [if_pos ⟨htag, by omega⟩]
  · unfold decode_tlv
    dsimp only
    rw [if_pos rfl, utf8Decode_utf8Bytes]
    rfl
  · unfold encode_tlv
    rw [if_neg (by omega)]

/-- Witness for `encode_tlv_roundtrip`: tag 1 with the 4-byte value
`"Acme"`, and a 256-byte value that is rejected. -/
theorem encode_tlv_roundtrip_witness :
    (1 < 256 ∧ (utf8Bytes "Acme").length ≤ 255 ∧
      255 < (utf8Bytes (String.mk (List.replicate 256 'a'))).length) ∧
    ((encode_tlv 1 "Acme" = some (1 :: (utf8Bytes "Acme").length :: utf8Bytes "Acme") ∧
      decode_tlv (1 :: (utf8Bytes "Acme").length :: utf8Bytes "Acme") = some (1, "Acme")) ∧
    encode_tlv 1 (String.mk (List.replicate 256 'a')) = none) := by
  constructor
  · refine ⟨by norm_num, by decide, ?_⟩
    set_option maxRecDepth 4000 in decide
  · exact encode_tlv_roundtrip 1 "Acme" (String.mk (List.replicate 256 'a'))
      (by norm_num) (by decide) (by set_option maxRecDepth 4000 in decide)

/-! ## Invoice data model (`src/db/models/invoices.py`)

`build_xml` interpolates fields with Python `str.format`, which renders
every field with `str()`. Fields that are `str` columns in the model
are embedded as `String`; numeric and date columns are embedded by
their rendered text (`str(Decimal)` / `isoformat`), which is what the
template consumes. Timestamps compared only for presence are embedded
as `Nat`. -/

/-- `InvoiceStatus` enum: pending / in_progress / done / failed. -/
inductive InvoiceStatus
  | pending
  | in_progress
  | done
  | failed
deriving DecidableEq, Repr

/-- `InvoiceItem` row; `quantity` (INTEGER) and `price`, `tax`
(NUMERIC) are embedded by their `str()` renderings, which is the form
`build_xml` interpolates. -/
structure InvoiceItem where
  id : String
  item_name : String
  quantity : String
  price : String
  tax : String
deriving DecidableEq, Repr

/-- `Invoice` row. `date`, `total`, `taxes`, `seller_taxes`,
`net_total` are embedded by their rendered text; `submitted_at` and
`created_at` as abstract timestamps. -/
structure Invoice where
  id : String
  invoice_number : String
  store_name : String
  store_address : String
  vat_number : String
  date : String
  total : String
  taxes : String
  seller_taxes : String
  net_total : String
  user_name : String
  account_id : String
  status : InvoiceStatus
  zatca_uuid : Option String
  zatca_xml : Option String
  zatca_xml_hash : Option String
  submitted_at : Option Nat
  last_error : Option String
  created_at : Nat
  items : List InvoiceItem
deriving DecidableEq, Repr

/-! ## XML builder and fingerprint (`src/services/zakat.py`) -/

/-- One `<cac:InvoiceLine>` element, as produced by the list
comprehension inside `ZakatService.build_xml`. -/
def invoice_line_xml (i : InvoiceItem) : String :=
  "<cac:InvoiceLine><cbc:ID>" ++ i.id ++ "</cbc:ID><cbc:InvoicedQuantity>" ++
    i.quantity ++ "</cbc:InvoicedQuantity><cbc:LineExtensionAmount>" ++
    i.price ++ "</cbc:LineExtensionAmount></cac:InvoiceLine>"

/-- Embedding of `ZakatService.build_xml`: the fixed UBL template with
the invoice fields spliced in verbatim by `str.format` (no escaping,
no validation). -/
def build_xml (inv : Invoice) : String :=
  let items_xml := String.join (inv.items.map invoice_line_xml)
  "<?xml version=\"1.0\" encoding=\"UTF-8\"?>\n" ++
  "<Invoice xmlns:cac=\"urn:oasis:names:specification:ubl:schema:xsd:CommonAggregateComponents-2\"\n" ++
  "         xmlns:cbc=\"urn:oasis:names:specification:ubl:schema:xsd:CommonBasicComponents-2\">\n" ++
  "  <cbc:ID>" ++ inv.invoice_number ++ "</cbc:ID>\n" ++
  "  <cbc:UUID>" ++ inv.id ++ "</cbc:UUID>\n" ++
  "  <cbc:IssueDate>" ++ inv.date ++ "</cbc:IssueDate>\n" ++
  "  <cbc:TaxTotal>" ++ inv.taxes ++ "</cbc:TaxTotal>\n" ++
  "  <cbc:LegalMonetaryTotal>" ++ inv.net_total ++ "</cbc:LegalMonetaryTotal>\n" ++
  "  <cac:AccountingSupplierParty>\n" ++
  "    <cbc:Name>" ++ inv.store_name ++ "</cbc:Name>\n" ++
  "    <cbc:CompanyID>" ++ inv.vat_number ++ "</cbc:CompanyID>\n" ++
  "  </cac:AccountingSupplierParty>\n" ++
  "  <cac:AccountingCustomerParty>\n" ++
  "    <cbc:Name>" ++ inv.account_id ++ "</cbc:Name>\n" ++
  "  </cac:AccountingCustomerParty>\n" ++
  "  " ++ items_xml ++ "\n" ++
  "</Invoice>"

/-- The base64 alphabet. -/
def b64chars : List Char :=
  "ABCDEFGHIJKLMNOPQRSTUVWXYZabcdefghijklmnopqrstuvwxyz0123456789+/".data

/-- One base64 digit. -/
def b64digit (n : Nat) : Char := b64chars.getD n 'A'

/-- Standard base64 of a byte sequence, as `base64.b64encode`
produces. -/
def b64encodeBytes : List Nat → List Char
  | [] => []
  | [a] => [b64digit (a / 4), b64digit (a % 4 * 16), '=', '=']
  | [a, b] => [b64digit (a / 4), b64digit (a % 4 * 16 + b / 16), b64digit (b % 16 * 4), '=']
  | a :: b :: c :: rest =>
    b64digit (a / 4) :: b64digit (a % 4 * 16 + b / 16) :: b64digit (b % 16 * 4 + c / 64) ::
      b64digit (c % 64) :: b64encodeBytes rest

/-- `base64.b64encode(xml.encode("utf-8")).decode("ascii")`. -/
def b64encode (s : String) : String := String.mk (b64encodeBytes (utf8Bytes s))

/-- Embedding of `ZakatService.encrypt_xml`: returns
`(enc_xml, xml_hash)` where `enc_xml` is the base64 of the XML's
UTF-8 bytes and `xml_hash` its SHA-256 hex digest. SHA-256 is a
cryptographic primitive outside the scope of this embedding, so the
hex-digest function is a parameter `sha`; no claim depends on the
digest's value, so all theorems hold for every `sha`. -/
def encrypt_xml (sha : String → String) (xml : String) : String × String :=
  (b64encode xml, sha xml)

/-! ## Batch orchestrator (`ZakatService.process_pending`) -/

/-- Environment of one `process_pending` run:

* `sha` — `hashlib.sha256(...).hexdigest()` (see `encrypt_xml`);
* `uuidGen` — the values produced by `uuid4()`, indexed by loop
  position (`uuid4` is a fresh random identifier; its value is never
  inspected);
* `now` — `datetime.utcnow()`;
* `endpoint` — `Config.ZATCA_ENDPOINT` (`None` when unconfigured);
* `upload` — the result `(ok, msg, remote_id)` of
  `ZakatService.upload_xml(enc_xml, xml_hash, invoice_uuid)`, which
  catches its own exceptions and always returns such a triple;
* `buildExc` — whether processing the given invoice raises an
  exception inside the per-invoice `try` block during the
  build/encrypt phase (e.g. a `build_xml` failure), and with which
  message.  -/
structure Ctx where
  sha : String → String
  uuidGen : Nat → String
  now : Nat
  endpoint : Option String
  upload : String → String → String → Bool × String × Option String
  buildExc : Invoice → Option String

/-- The body of the per-invoice loop of
`ZakatService.process_pending` (lines 33–64 of
`src/services/zakat.py`): try to build and fingerprint the XML, mark
`in_progress`, then either simulate success (when `simulate` is set
or no endpoint is configured), or upload and record the outcome; any
exception is caught at this per-invoice boundary and recorded as
`failed` with a 1000-character-truncated message. Returns the updated
invoice and whether it counts as a success. -/
def processOne (c : Ctx) (simulate : Bool) (k : Nat) (inv : Invoice) : Invoice × Bool :=
  match c.buildExc inv with
  | some e =>
    ({ inv with
      status := InvoiceStatus.failed
      last_error := some (e.take 1000) }, false)
  | none =>
    let enc := encrypt_xml c.sha (build_xml inv)
    let inv1 := { inv with
      zatca_xml := some enc.1
      zatca_xml_hash := some enc.2
      status := InvoiceStatus.in_progress }
    if simulate || c.endpoint.isNone then
      ({ inv1 with
        zatca_uuid := some (c.uuidGen k)
        status := InvoiceStatus.done
        submitted_at := some c.now }, true)
    else
      match c.upload enc.1 enc.2 inv1.id with
      | (true, _, remote_id) =>
        let rid := match remote_id with
          | some r => if r = "" then c.uuidGen k else r
          | none => c.uuidGen k
        ({ inv1 with
          zatca_uuid := some rid
          status := InvoiceStatus.done
          submitted_at := some c.now }, true)
      | (false, msg, _) =>
        ({ inv1 with
          status := InvoiceStatus.failed
          last_error := some (msg.take 1000) }, false)

/-- Aggregate counts returned by the batch. -/
structure BatchCounts where
  processed : Nat
  success : Nat
  failed : Nat
deriving DecidableEq, Repr

/-- `inv.status == PENDING`, the selection predicate of the query. -/
def isPending (inv : Invoice) : Bool := inv.status = InvoiceStatus.pending

/-- Fused embedding of `process_pending`'s
select-then-loop-then-commit: the query
`select(Invoice).where(status == PENDING).limit(limit)` carries no
`ORDER BY`, so it yields the stored invoices in storage order; the
loop mutates exactly the first `budget` pending rows of that order
(each via `processOne`), and the final commit persists them, so
element `i` of the result list is the updated row `i` of the input
list. `k` is the loop position (indexing `uuidGen`). -/
def runPending (c : Ctx) (simulate : Bool) : Nat → Nat → List Invoice → List Invoice × BatchCounts
  | _, _, [] => ([], ⟨0, 0, 0⟩)
  | budget, k, inv :: rest =>
    if inv.status = InvoiceStatus.pending ∧ 0 < budget then
      let r := processOne c simulate k inv
      let t := runPending c simulate (budget - 1) (k + 1) rest
      (r.1 :: t.1,
        ⟨t.2.processed + 1,
         t.2.success + (if r.2 then 1 else 0),
         t.2.failed + (if r.2 then 0 else 1)⟩)
    else
      let t := runPending c simulate budget k rest
      (inv :: t.1, t.2)

/-- Embedding of `ZakatService.process_pending(session, limit,
simulate)`: the stored invoice table is the list `db` (in storage
order), and the result is the updated table together with the counts
`{processed, success, failed}` returned to the caller. -/
def process_pending (c : Ctx) (db : List Invoice) (limit : Nat) (simulate : Bool) :
    List Invoice × BatchCounts :=
  runPending c simulate limit 0 db

/-! ## Concrete fixtures used by witnesses and counterexamples -/

/-- A well-formed invoice row with the given number and status. -/
def baseInvoice (num : String) (st : InvoiceStatus) : Invoice :=
  { id := num
    invoice_number := num
    store_name := "Store"
    store_address := "Addr"
    vat_number := "310000000000003"
    date := "2025-01-01"
    total := "100.00"
    taxes := "15.00"
    seller_taxes := "2.25"
    net_total := "82.75"
    user_name := "User"
    account_id := "ACC-1"
    status := st
    zatca_uuid := none
    zatca_xml := none
    zatca_xml_hash := none
    submitted_at := none
    last_error := none
    created_at := 0
    items := [] }

/-- A run environment with no endpoint configured and no
per-invoice exception. -/
def simCtx : Ctx :=
  { sha := fun _ => "h"
    uuidGen := fun k => "u" ++ toString k
    now := 7
    endpoint := none
    upload := fun _ _ _ => (true, "ok", some "rid")
    buildExc := fun _ => none }

/-! ## Orchestrator lemmas -/

theorem runPending_length (c : Ctx) (simulate : Bool) (budget k : Nat) (db : List Invoice) :
    (runPending c simulate budget k db).1.length = db.length := by
  induction db generalizing budget k with
  | nil => rfl
  | cons inv rest ih =>
    rw [runPending]
    by_cases h : inv.status = InvoiceStatus.pending ∧ 0 < budget
    · rw [if_pos h]
      simp [ih]
    · rw [if_neg h]
      simp [ih]

theorem runPending_processed (c : Ctx) (simulate : Bool) (budget k : Nat) (db : List Invoice) :
    (runPending c simulate budget k db).2.processed = min budget (db.countP isPending) := by
  induction db generalizing budget k with
  | nil =>
    show (0 : Nat) = min budget (List.countP isPending [])
    rw [List.countP_nil, Nat.min_zero]
  | cons inv rest ih =>
    rw [runPending]
    by_cases hp : inv.status = InvoiceStatus.pending
    · have hip : isPending inv = true := by simp [isPending, hp]
      have hone : (if isPending inv = true then 1 else 0) = 1 := by simp [hip]
      rw [List.countP_cons, hone]
      by_cases hb : 0 < budget
      · rw [if_pos ⟨hp, hb⟩]
        show (runPending c simulate (budget - 1) (k + 1) rest).2.processed + 1 = _
        rw [ih]
        omega
      · rw [if_neg (fun hc => hb hc.2)]
        show (runPending c simulate budget k rest).2.processed = _
        rw [ih]
        omega
    · have hip : isPending inv = false := by simp [isPending, hp]
      have hzero : (if isPending inv = true then 1 else 0) = 0 := by simp [hip]
      rw [List.countP_cons, hzero, if_neg (fun hc => hp hc.1)]
      show (runPending c simulate budget k rest).2.processed = _
      rw [ih]
      omega

theorem runPending_success_add_failed (c : Ctx) (simulate : Bool) (budget k : Nat)
    (db : List Invoice) :
    (runPending c simulate budget k db).2.processed =
      (runPending c simulate budget k db).2.success +
      (runPending c simulate budget k db).2.failed := by
  induction db generalizing budget k with
  | nil => rfl
  | cons inv rest ih =>
    rw [runPending]
    by_cases h : inv.status = InvoiceStatus.pending ∧ 0 < budget
    · rw [if_pos h]
      have := ih (budget - 1) (k + 1)
      by_cases hs : (processOne c simulate k inv).2
      · simp only [hs, if_pos]
        simp only at this ⊢
        omega
      · simp only [Bool.not_eq_true] at hs
        simp only [hs, if_neg Bool.false_ne_true]
        simp only at this ⊢
        omega
    · rw [if_neg h]
      exact ih budget k

theorem runPending_frame (c : Ctx) (simulate : Bool) (budget k : Nat) (db : List Invoice)
    (i : Nat) (hi : i < db.length)
    (h : (db.get ⟨i, hi⟩).status ≠ InvoiceStatus.pending ∨
      budget ≤ (db.take i).countP isPending) :
    (runPending c simulate budget k db).1[i]? = some (db.get ⟨i, hi⟩) := by
  induction db generalizing budget k i with
  | nil => exact absurd hi (by simp)
  | cons inv rest ih =>
    rw [runPending]
    by_cases hsel : inv.status = InvoiceStatus.pending ∧ 0 < budget
    · rw [if_pos hsel]
      cases i with
      | zero =>
        simp only [List.get] at h
        rcases h with h | h
        · exact absurd hsel.1 h
        · have hb := hsel.2
          simp at h
          omega
      | succ j =>
        simp only [List.getElem?_cons_succ]
        apply ih
        rcases h with h | h
        · exact Or.inl h
        · right
          rw [List.take_succ_cons, List.countP_cons] at h
          have hip : isPending inv = true := by simp [isPending, hsel.1]
          rw [hip] at h
          simp at h
          omega
    · rw [if_neg hsel]
      cases i with
      | zero => simp
      | succ j =>
        simp only [List.getElem?_cons_succ]
        apply ih
        rcases h with h | h
        · exact Or.inl h
        · right
          by_cases hp : inv.status = InvoiceStatus.pending
          · have hb : ¬ 0 < budget := fun b => hsel ⟨hp, b⟩
            omega
          · have hip : isPending inv = false := by simp [isPending, hp]
            rw [List.take_succ_cons, List.countP_cons, hip] at h
            simpa using h

theorem runPending_selected (c : Ctx) (simulate : Bool) (budget k : Nat) (db : List Invoice)
    (i : Nat) (hi : i < db.length)
    (hpend : (db.get ⟨i, hi⟩).status = InvoiceStatus.pending)
    (hcnt : (db.take i).countP isPending < budget) :
    (runPending c simulate budget k db).1[i]? =
      some (processOne c simulate (k + (db.take i).countP isPending) (db.get ⟨i, hi⟩)).1 := by
  induction db generalizing budget k i with
  | nil => exact absurd hi (by simp)
  | cons inv rest ih =>
    rw [runPending]
    by_cases hsel : inv.status = InvoiceStatus.pending ∧ 0 < budget
    · rw [if_pos hsel]
      cases i with
      | zero => simp
      | succ j =>
        simp only [List.getElem?_cons_succ]
        have hip : isPending inv = true := by simp [isPending, hsel.1]
        have hone : (if isPending inv = true then 1 else 0) = 1 := by simp [hip]
        rw [List.take_succ_cons, List.countP_cons, hone] at hcnt ⊢
        have hh := ih (budget - 1) (k + 1) j (by simpa using hi) hpend (by omega)
        rw [show k + ((rest.take j).countP isPending + 1) =
          k + 1 + (rest.take j).countP isPending from by omega]
        exact hh
    · cases i with
      | zero =>
        simp only [List.take_zero, List.countP_nil] at hcnt
        simp only [List.get] at hpend
        exact absurd ⟨hpend, hcnt⟩ hsel
      | succ j =>
        rw [if_neg hsel]
        simp only [List.getElem?_cons_succ]
        by_cases hp : inv.status = InvoiceStatus.pending
        · have hb : ¬ 0 < budget := fun b => hsel ⟨hp, b⟩
          exact absurd hcnt (by omega)
        · have hip : isPending inv = false := by simp [isPending, hp]
          have hzero : (if isPending inv = true then 1 else 0) = 0 := by simp [hip]
          rw [List.take_succ_cons, List.countP_cons, hzero] at hcnt ⊢
          simp only [Nat.add_zero] at hcnt ⊢
          exact ih budget k j (by simpa using hi) hpend hcnt

theorem processOne_exc (c : Ctx) (simulate : Bool) (k : Nat) (inv : Invoice) (e : String)
    (hexc : c.buildExc inv = some e) :
    processOne c simulate k inv =
      ({ inv with
          status := InvoiceStatus.failed
          last_error := some (e.take 1000) }, false) := by
  simp only [processOne, hexc]

theorem processOne_sim (c : Ctx) (simulate : Bool) (k : Nat) (inv : Invoice)
    (hexc : c.buildExc inv = none) (hs : (simulate || c.endpoint.isNone) = true) :
    processOne c simulate k inv =
      ({ inv with
          zatca_xml := some (encrypt_xml c.sha (build_xml inv)).1
          zatca_xml_hash := some (encrypt_xml c.sha (build_xml inv)).2
          zatca_uuid := some (c.uuidGen k)
          status := InvoiceStatus.done
          submitted_at := some c.now }, true) := by
  simp [processOne, hexc, hs]

theorem processOne_live_ok (c : Ctx) (simulate : Bool) (k : Nat) (inv : Invoice)
    (msg : String) (rid : Option String)
    (hexc : c.buildExc inv = none) (hs : (simulate || c.endpoint.isNone) = false)
    (hup : c.upload (encrypt_xml c.sha (build_xml inv)).1
      (encrypt_xml c.sha (build_xml inv)).2 inv.id = (true, msg, rid)) :
    processOne c simulate k inv =
      ({ inv with
          zatca_xml := some (encrypt_xml c.sha (build_xml inv)).1
          zatca_xml_hash := some (encrypt_xml c.sha (build_xml inv)).2
          zatca_uuid := some (match rid with
            | some r => if r = "" then c.uuidGen k else r
            | none => c.uuidGen k)
          status := InvoiceStatus.done
          submitted_at := some c.now }, true) := by
  simp [processOne, hexc, hs, hup]
  cases rid <;> rfl

theorem processOne_live_err (c : Ctx) (simulate : Bool) (k : Nat) (inv : Invoice)
    (msg : String) (rid : Option String)
    (hexc : c.buildExc inv = none) (hs : (simulate || c.endpoint.isNone) = false)
    (hup : c.upload (encrypt_xml c.sha (build_xml inv)).1
      (encrypt_xml c.sha (build_xml inv)).2 inv.id = (false, msg, rid)) :
    processOne c simulate k inv =
      ({ inv with
          zatca_xml := some (encrypt_xml c.sha (build_xml inv)).1
          zatca_xml_hash := some (encrypt_xml c.sha (build_xml inv)).2
          status := InvoiceStatus.failed
          last_error := some (msg.take 1000) }, false) := by
  simp [processOne, hexc, hs, hup]

theorem processOne_done (c : Ctx) (simulate : Bool) (k : Nat) (inv : Invoice)
    (h : (processOne c simulate k inv).1.status = InvoiceStatus.done) :
    (processOne c simulate k inv).1.zatca_uuid.isSome = true ∧
    (processOne c simulate k inv).1.submitted_at = some c.now ∧
    (processOne c simulate k inv).1.last_error = inv.last_error := by
  rcases hexc : c.buildExc inv with _ | e
  · by_cases hs : (simulate || c.endpoint.isNone) = true
    · rw [processOne_sim c simulate k inv hexc hs]
      exact ⟨rfl, rfl, rfl⟩
    · have hs2 : (simulate || c.endpoint.isNone) = false := by
        revert hs
        cases simulate || c.endpoint.isNone <;> simp
      rcases hup : c.upload (encrypt_xml c.sha (build_xml inv)).1
          (encrypt_xml c.sha (build_xml inv)).2 inv.id with ⟨ok, msg, rid⟩
      cases ok
      · rw [processOne_live_err c simulate k inv msg rid hexc hs2 hup] at h
        exact absurd h (by simp)
      · rw [processOne_live_ok c simulate k inv msg rid hexc hs2 hup]
        exact ⟨rfl, rfl, rfl⟩
  · rw [processOne_exc c simulate k inv e hexc] at h
    exact absurd h (by simp)

/-! ## Claim theorems for the orchestrator -/

/-- Three pending invoices in storage. -/
def threePending : List Invoice :=
  [baseInvoice "1" InvoiceStatus.pending, baseInvoice "2" InvoiceStatus.pending,
    baseInvoice "3" InvoiceStatus.pending]

/-- Environment in which processing the invoice numbered `"2"` raises
an exception (an engineered validation failure). -/
def failSecondCtx : Ctx :=
  { simCtx with buildExc := fun inv => if inv.invoice_number = "2" then some "boom" else none }

/-- C1: `process_pending` processes at most `limit` pending invoices
(`processed = min limit #pending`, for every exception oracle — a
per-invoice failure never aborts the batch, whose counts always
satisfy `processed = success + failed`); concretely, with 3 pending
invoices of which exactly the 2nd fails, it returns
`{processed := 3, success := 2, failed := 1}` and the 1st and 3rd end
in `done`. -/
theorem process_pending_batch_contract :
    (∀ (c : Ctx) (db : List Invoice) (limit : Nat) (simulate : Bool),
      (process_pending c db limit simulate).2.processed = min limit (db.countP isPending) ∧
      (process_pending c db limit simulate).2.processed =
        (process_pending c db limit simulate).2.success +
        (process_pending c db limit simulate).2.failed) ∧
    (process_pending failSecondCtx threePending 3 true).2 = ⟨3, 2, 1⟩ ∧
    (process_pending failSecondCtx threePending 3 true).1.map Invoice.status =
      [InvoiceStatus.done, InvoiceStatus.failed, InvoiceStatus.done] := by
  refine ⟨fun c db limit simulate =>
    ⟨runPending_processed c simulate limit 0 db,
     runPending_success_add_failed c simulate limit 0 db⟩, ?_, ?_⟩
  · decide
  · decide

/-- A pending invoice carrying a stale error message from an earlier
failed attempt. -/
def staleErrorInv : Invoice :=
  { baseInvoice "c2" InvoiceStatus.pending with last_error := some "old failure" }

/-- C2 counterexample: a pending invoice whose `last_error` holds a
stale message is driven to `done` by a simulated batch, and its
`last_error` is NOT cleared — after the batch, `last_error` is
non-null while `status = done`, violating the claimed invariant. -/
theorem process_pending_keeps_stale_error :
    staleErrorInv.status = InvoiceStatus.pending ∧
    ((process_pending simCtx [staleErrorInv] 1 true).1.headD staleErrorInv).status =
      InvoiceStatus.done ∧
    ((process_pending simCtx [staleErrorInv] 1 true).1.headD staleErrorInv).last_error =
      some "old failure" :=
  ⟨rfl, rfl, rfl⟩

/-- C2 amended: every invoice that was pending at selection time and
ends the batch in `done` has its remote id (`zatca_uuid`) and
submission timestamp (`submitted_at`) set, but its `last_error` is
left unchanged rather than cleared — so `lastError` non-null only
when `status = Failed` holds only for invoices whose `last_error`
was null beforehand. -/
theorem process_pending_done_sets_fields (c : Ctx) (db : List Invoice) (limit : Nat)
    (simulate : Bool) (i : Nat) (pre post : Invoice)
    (hpre : db[i]? = some pre)
    (hpost : (process_pending c db limit simulate).1[i]? = some post)
    (hpend : pre.status = InvoiceStatus.pending)
    (hdone : post.status = InvoiceStatus.done) :
    post.zatca_uuid.isSome = true ∧ post.submitted_at = some c.now ∧
    post.last_error = pre.last_error := by
  have hi : i < db.length := by
    by_contra hlt
    rw [List.getElem?_eq_none (by omega)] at hpre
    exact absurd hpre (by simp)
  have hget : db.get ⟨i, hi⟩ = pre := by
    have := List.getElem?_eq_getElem hi
    rw [this] at hpre
    simpa using hpre
  by_cases hcnt : (db.take i).countP isPending < limit
  · have hsel := runPending_selected c simulate limit 0 db i hi (hget ▸ hpend) hcnt
    rw [show process_pending c db limit simulate = runPending c simulate limit 0 db from rfl]
      at hpost
    rw [hsel] at hpost
    have hpost2 : post = (processOne c simulate (0 + (db.take i).countP isPending)
        (db.get ⟨i, hi⟩)).1 := by
      simpa using hpost.symm
    subst hpost2
    rw [hget]
    exact processOne_done c simulate _ pre (by rw [hget] at hdone; exact hdone)
  · have hfr := runPending_frame c simulate limit 0 db i hi (Or.inr (by omega))
    rw [show process_pending c db limit simulate = runPending c simulate limit 0 db from rfl]
      at hpost
    rw [hfr] at hpost
    have : post = pre := by
      rw [hget] at hpost
      simpa using hpost.symm
    subst this
    rw [hpend] at hdone
    exact absurd hdone (by simp)

/-- Post-state of the C2 witness invoice. -/
def doneWitnessPost : Invoice :=
  (process_pending simCtx [baseInvoice "w2" InvoiceStatus.pending] 1 true).1.headD
    (baseInvoice "w2" InvoiceStatus.pending)

/-- Witness for `process_pending_done_sets_fields`: one pending
invoice, simulated run. -/
theorem process_pending_done_sets_fields_witness :
    ([baseInvoice "w2" InvoiceStatus.pending][0]? =
      some (baseInvoice "w2" InvoiceStatus.pending)) ∧
    ((process_pending simCtx [baseInvoice "w2" InvoiceStatus.pending] 1 true).1[0]? =
      some doneWitnessPost) ∧
    (baseInvoice "w2" InvoiceStatus.pending).status = InvoiceStatus.pending ∧
    doneWitnessPost.status = InvoiceStatus.done ∧
    (doneWitnessPost.zatca_uuid.isSome = true ∧
      doneWitnessPost.submitted_at = some simCtx.now ∧
      doneWitnessPost.last_error = (baseInvoice "w2" InvoiceStatus.pending).last_error) :=
  ⟨rfl, rfl, rfl, rfl,
    process_pending_done_sets_fields simCtx [baseInvoice "w2" InvoiceStatus.pending] 1 true 0
      (baseInvoice "w2" InvoiceStatus.pending) doneWitnessPost rfl rfl rfl rfl⟩

/-- A newer pending invoice stored ahead of an older one. -/
def newerInv : Invoice := { baseInvoice "B" InvoiceStatus.pending with created_at := 2 }

/-- The oldest pending invoice, stored last. -/
def olderInv : Invoice := { baseInvoice "A" InvoiceStatus.pending with created_at := 1 }

/-- C6 counterexample: the selection query has no `ORDER BY`, so the
storage is free to return the newer invoice first; with `limit = 1`
the batch processes the newer invoice (`created_at = 2`) and leaves
the oldest (`created_at = 1`) pending — not the oldest-first
selection the claim requires. -/
theorem process_pending_not_oldest_first :
    newerInv.created_at = 2 ∧ olderInv.created_at = 1 ∧
    newerInv.status = InvoiceStatus.pending ∧ olderInv.status = InvoiceStatus.pending ∧
    (process_pending simCtx [newerInv, olderInv] 1 true).1.map Invoice.status =
      [InvoiceStatus.done, InvoiceStatus.pending] := by
  refine ⟨rfl, rfl, rfl, rfl, ?_⟩
  decide

/-- C6 amended: `process_pending` deterministically processes the
first `limit` pending invoices in the order the storage returns them
(the query carries no `ORDER BY`), not in oldest-first creation
order: position `i`, if pending with fewer than `limit` pending
rows before it, is processed (as the `countP`-th loop iteration). -/
theorem process_pending_storage_order (c : Ctx) (db : List Invoice) (limit : Nat)
    (simulate : Bool) (i : Nat) (hi : i < db.length)
    (hpend : (db.get ⟨i, hi⟩).status = InvoiceStatus.pending)
    (hcnt : (db.take i).countP isPending < limit) :
    (process_pending c db limit simulate).1[i]? =
      some (processOne c simulate ((db.take i).countP isPending) (db.get ⟨i, hi⟩)).1 := by
  have h0 := runPending_selected c simulate limit 0 db i hi hpend hcnt
  rw [Nat.zero_add] at h0
  exact h0

/-- Witness for `process_pending_storage_order`: a single pending
invoice at position 0. -/
theorem process_pending_storage_order_witness :
    (([baseInvoice "w6" InvoiceStatus.pending].take 0).countP isPending < 1) ∧
    (process_pending simCtx [baseInvoice "w6" InvoiceStatus.pending] 1 true).1[0]? =
      some (processOne simCtx true
        (([baseInvoice "w6" InvoiceStatus.pending].take 0).countP isPending)
        ([baseInvoice "w6" InvoiceStatus.pending].get ⟨0, by norm_num⟩)).1 :=
  ⟨by decide,
    process_pending_storage_order simCtx [baseInvoice "w6" InvoiceStatus.pending] 1 true 0
      (by norm_num) rfl (by decide)⟩

/-- Environment with no endpoint configured and a remote that would
refuse every upload. -/
def refusedCtx : Ctx :=
  { simCtx with upload := fun _ _ _ => (false, "connection refused", none) }

/-- C7 counterexample: with `simulate = false` but no configured
endpoint, the batch takes the simulated branch: even though every
upload would fail, the invoice ends `done` with a synthesized remote
identifier and the batch counts a success — the choice is not made
solely by the `simulate` parameter. -/
theorem process_pending_simulates_without_endpoint :
    refusedCtx.endpoint = none ∧
    refusedCtx.upload = (fun _ _ _ => (false, "connection refused", none)) ∧
    (process_pending refusedCtx [baseInvoice "c7" InvoiceStatus.pending] 1 false).2 =
      ⟨1, 1, 0⟩ ∧
    (process_pending refusedCtx [baseInvoice "c7" InvoiceStatus.pending] 1 false).1.map
      Invoice.status = [InvoiceStatus.done] ∧
    ((process_pending refusedCtx [baseInvoice "c7" InvoiceStatus.pending] 1 false).1.headD
      (baseInvoice "c7" InvoiceStatus.pending)).zatca_uuid = some (refusedCtx.uuidGen 0) := by
  refine ⟨rfl, rfl, by decide, by decide, rfl⟩

theorem runPending_live_fails (c : Ctx) (e m : String)
    (hep : c.endpoint = some e)
    (hup : c.upload = fun _ _ _ => (false, m, none))
    (hexc : c.buildExc = fun _ => none) (budget k : Nat) (db : List Invoice) :
    (runPending c false budget k db).2.failed = (runPending c false budget k db).2.processed ∧
    (runPending c false budget k db).2.success = 0 := by
  induction db generalizing budget k with
  | nil => exact ⟨rfl, rfl⟩
  | cons inv rest ih =>
    rw [runPending]
    by_cases hsel : inv.status = InvoiceStatus.pending ∧ 0 < budget
    · rw [if_pos hsel]
      have hfail : (processOne c false k inv).2 = false := by
        have hs : ((false : Bool) || c.endpoint.isNone) = false := by rw [hep]; rfl
        have hexc2 : c.buildExc inv = none := by simp only [hexc]
        have hup2 : c.upload (encrypt_xml c.sha (build_xml inv)).1
            (encrypt_xml c.sha (build_xml inv)).2 inv.id = (false, m, none) := by
          simp only [hup]
        rw [processOne_live_err c false k inv m none hexc2 hs hup2]
      have t1 := (ih (budget - 1) (k + 1)).1
      have t2 := (ih (budget - 1) (k + 1)).2
      simp only [hfail, Bool.false_eq_true, if_false]
      constructor
      · show (runPending c false (budget - 1) (k + 1) rest).2.failed + 1 =
          (runPending c false (budget - 1) (k + 1) rest).2.processed + 1
        omega
      · show (runPending c false (budget - 1) (k + 1) rest).2.success + 0 = 0
        omega
    · rw [if_neg hsel]
      exact ih budget k

/-- C7 amended: the simulated branch is taken whenever `simulate` is
true OR no endpoint is configured; only with `simulate = false` AND a
configured endpoint is the remote submission path taken — and then
the outcome is decided by the upload result (here: a remote that
always refuses makes every processed invoice fail and none succeed). -/
theorem process_pending_live_when_configured (c : Ctx) (db : List Invoice) (limit : Nat)
    (e m : String) (hep : c.endpoint = some e)
    (hup : c.upload = fun _ _ _ => (false, m, none))
    (hexc : c.buildExc = fun _ => none) :
    (process_pending c db limit false).2.failed =
      (process_pending c db limit false).2.processed ∧
    (process_pending c db limit false).2.success = 0 :=
  runPending_live_fails c e m hep hup hexc limit 0 db

/-- Environment with a configured endpoint whose remote refuses
every submission. -/
def liveFailCtx : Ctx :=
  { simCtx with
    endpoint := some "https://gw.zatca.example"
    upload := fun _ _ _ => (false, "rejected", none) }

/-- Witness for `process_pending_live_when_configured`. -/
theorem process_pending_live_when_configured_witness :
    (process_pending liveFailCtx [baseInvoice "c7w" InvoiceStatus.pending] 1 false).2.failed =
      (process_pending liveFailCtx [baseInvoice "c7w" InvoiceStatus.pending] 1
        false).2.processed ∧
    (process_pending liveFailCtx [baseInvoice "c7w" InvoiceStatus.pending] 1
      false).2.success = 0 :=
  process_pending_live_when_configured liveFailCtx
    [baseInvoice "c7w" InvoiceStatus.pending] 1 "https://gw.zatca.example" "rejected"
    rfl rfl rfl

/-- C10: `process_pending` modifies only invoices that are pending at
selection time and within the first `limit` pending rows of the
storage order; every other row — non-pending, or pending but beyond
the limit — is returned with all of its fields unchanged. -/
theorem process_pending_frame (c : Ctx) (db : List Invoice) (limit : Nat) (simulate : Bool)
    (i : Nat) (hi : i < db.length)
    (h : (db.get ⟨i, hi⟩).status ≠ InvoiceStatus.pending ∨
      limit ≤ (db.take i).countP isPending) :
    (process_pending c db limit simulate).1[i]? = some (db.get ⟨i, hi⟩) :=
  runPending_frame c simulate limit 0 db i hi h

/-- Witness for `process_pending_frame`: a `done` invoice is
untouched by the batch. -/
theorem process_pending_frame_witness :
    (([baseInvoice "d10" InvoiceStatus.done].get
        ⟨0, by norm_num⟩).status ≠ InvoiceStatus.pending) ∧
    (process_pending simCtx [baseInvoice "d10" InvoiceStatus.done] 1 true).1[0]? =
      some ([baseInvoice "d10" InvoiceStatus.done].get ⟨0, by norm_num⟩) :=
  ⟨by decide,
    process_pending_frame simCtx [baseInvoice "d10" InvoiceStatus.done] 1 true 0
      (by norm_num) (Or.inl (by decide))⟩

/-! ## XML builder claims (C3, C8) -/

/-- Number of occurrences of a character in a string. -/
def countIn (ch : Char) (s : String) : Nat := s.data.count ch

/-- An invoice row with every interpolated field empty — in
particular seller name, VAT number and invoice id are all empty. -/
def emptyFieldsInvoice : Invoice :=
  { id := ""
    invoice_number := ""
    store_name := ""
    store_address := ""
    vat_number := ""
    date := ""
    total := ""
    taxes := ""
    seller_taxes := ""
    net_total := ""
    user_name := ""
    account_id := ""
    status := InvoiceStatus.pending
    zatca_uuid := none
    zatca_xml := none
    zatca_xml_hash := none
    submitted_at := none
    last_error := none
    created_at := 0
    items := [] }

/-- An item with every rendered field empty. -/
def emptyItem : InvoiceItem :=
  { id := "", item_name := "", quantity := "", price := "", tax := "" }

theorem countIn_append (ch : Char) (a b : String) :
    countIn ch (a ++ b) = countIn ch a + countIn ch b := by
  unfold countIn
  rw [String.data_append, List.count_append]

theorem countIn_foldl (ch : Char) (L : List String) (acc : String) :
    countIn ch (L.foldl (fun r s => r ++ s) acc) =
      countIn ch acc + (L.map (countIn ch)).sum := by
  induction L generalizing acc with
  | nil => simp
  | cons s l ih =>
    rw [List.foldl_cons, ih, countIn_append]
    simp
    omega

theorem countIn_join (ch : Char) (L : List String) :
    countIn ch (String.join L) = (L.map (countIn ch)).sum := by
  unfold String.join
  rw [countIn_foldl]
  have h0 : countIn ch "" = 0 := rfl
  omega

/-- C3 counterexample: on an invoice whose seller name, VAT number
and invoice id are all empty, `build_xml` does not fail — it returns
this XML string (with empty element bodies), so no
`MissingRequiredField`/`ValidationError` exists in the code. -/
theorem build_xml_returns_string_on_missing_fields :
    emptyFieldsInvoice.store_name = "" ∧ emptyFieldsInvoice.vat_number = "" ∧
    emptyFieldsInvoice.invoice_number = "" ∧
    build_xml emptyFieldsInvoice =
      "<?xml version=\"1.0\" encoding=\"UTF-8\"?>\n<Invoice xmlns:cac=\"urn:oasis:names:specification:ubl:schema:xsd:CommonAggregateComponents-2\"\n         xmlns:cbc=\"urn:oasis:names:specification:ubl:schema:xsd:CommonBasicComponents-2\">\n  <cbc:ID></cbc:ID>\n  <cbc:UUID></cbc:UUID>\n  <cbc:IssueDate></cbc:IssueDate>\n  <cbc:TaxTotal></cbc:TaxTotal>\n  <cbc:LegalMonetaryTotal></cbc:LegalMonetaryTotal>\n  <cac:AccountingSupplierParty>\n    <cbc:Name></cbc:Name>\n    <cbc:CompanyID></cbc:CompanyID>\n  </cac:AccountingSupplierParty>\n  <cac:AccountingCustomerParty>\n    <cbc:Name></cbc:Name>\n  </cac:AccountingCustomerParty>\n  \n</Invoice>" :=
  ⟨rfl, rfl, rfl, by set_option maxRecDepth 10000 in decide⟩

/-- C3 amended: `build_xml` performs no required-field validation —
it is a total function that splices the fields into the template
verbatim, so for every invoice without items (empty seller name, VAT
number or invoice id included) the output is the template, of length
equal to the empty-fields template plus the field lengths; no error
is ever signalled. -/
theorem build_xml_no_validation (inv : Invoice) (h : inv.items = []) :
    (build_xml inv).length =
      (build_xml emptyFieldsInvoice).length + inv.invoice_number.length + inv.id.length +
      inv.date.length + inv.taxes.length + inv.net_total.length + inv.store_name.length +
      inv.vat_number.length + inv.account_id.length := by
  unfold build_xml
  rw [h]
  simp only [emptyFieldsInvoice, List.map_nil, String.length_append, String.length_empty]
  omega

/-- Witness for `build_xml_no_validation` on a populated itemless
invoice. -/
theorem build_xml_no_validation_witness :
    (baseInvoice "w3" InvoiceStatus.pending).items = [] ∧
    (build_xml (baseInvoice "w3" InvoiceStatus.pending)).length =
      (build_xml emptyFieldsInvoice).length +
      (baseInvoice "w3" InvoiceStatus.pending).invoice_number.length +
      (baseInvoice "w3" InvoiceStatus.pending).id.length +
      (baseInvoice "w3" InvoiceStatus.pending).date.length +
      (baseInvoice "w3" InvoiceStatus.pending).taxes.length +
      (baseInvoice "w3" InvoiceStatus.pending).net_total.length +
      (baseInvoice "w3" InvoiceStatus.pending).store_name.length +
      (baseInvoice "w3" InvoiceStatus.pending).vat_number.length +
      (baseInvoice "w3" InvoiceStatus.pending).account_id.length :=
  ⟨rfl, build_xml_no_validation (baseInvoice "w3" InvoiceStatus.pending) rfl⟩

/-- A string contains neither `<` nor `>`. -/
def escFree (s : String) : Prop := countIn '<' s = 0 ∧ countIn '>' s = 0

instance (s : String) : Decidable (escFree s) := by
  unfold escFree
  infer_instance

/-- All rendered fields of an item are free of `<` and `>`. -/
def cleanItem (it : InvoiceItem) : Prop :=
  escFree it.id ∧ escFree it.quantity ∧ escFree it.price

instance (it : InvoiceItem) : Decidable (cleanItem it) := by
  unfold cleanItem
  infer_instance

/-- All fields interpolated by `build_xml` are free of `<` and `>`. -/
def cleanInvoice (inv : Invoice) : Prop :=
  escFree inv.invoice_number ∧ escFree inv.id ∧ escFree inv.date ∧ escFree inv.taxes ∧
  escFree inv.net_total ∧ escFree inv.store_name ∧ escFree inv.vat_number ∧
  escFree inv.account_id ∧ ∀ it ∈ inv.items, cleanItem it

instance (inv : Invoice) : Decidable (cleanInvoice inv) := by
  unfold cleanInvoice
  infer_instance

theorem countIn_invoice_line (ch : Char) (it : InvoiceItem) :
    countIn ch (invoice_line_xml it) =
      countIn ch (invoice_line_xml emptyItem) + countIn ch it.id + countIn ch it.quantity +
      countIn ch it.price := by
  unfold invoice_line_xml
  simp only [countIn_append, emptyItem]
  have h0 : countIn ch "" = 0 := rfl
  omega

theorem invoice_line_balanced (it : InvoiceItem) (h : cleanItem it) :
    countIn '<' (invoice_line_xml it) = countIn '>' (invoice_line_xml it) := by
  obtain ⟨h1, h2, h3⟩ := h
  rw [countIn_invoice_line '<' it, countIn_invoice_line '>' it,
    h1.1, h1.2, h2.1, h2.2, h3.1, h3.2]
  have he : countIn '<' (invoice_line_xml emptyItem) =
      countIn '>' (invoice_line_xml emptyItem) := by
    set_option maxRecDepth 10000 in decide
  omega

theorem countIn_build_xml (ch : Char) (inv : Invoice) :
    countIn ch (build_xml inv) =
      countIn ch (build_xml emptyFieldsInvoice) + countIn ch inv.invoice_number +
      countIn ch inv.id + countIn ch inv.date + countIn ch inv.taxes +
      countIn ch inv.net_total + countIn ch inv.store_name + countIn ch inv.vat_number +
      countIn ch inv.account_id +
      ((inv.items.map (fun it => countIn ch (invoice_line_xml it))).sum) := by
  unfold build_xml
  simp only [countIn_append, countIn_join, List.map_map, emptyFieldsInvoice, List.map_nil,
    List.sum_nil, Function.comp_def]
  have h0 : countIn ch "" = 0 := rfl
  omega

/-- C8 counterexample: a seller name containing `<` is spliced into
the document unescaped, leaving more `<` than `>` — the output is
not well-formed, so `build_xml` does not escape `<`, `>`, `&`. -/
theorem build_xml_unescaped :
    ({ baseInvoice "bad" InvoiceStatus.pending with
        store_name := "a<b"
        items := [emptyItem] } : Invoice).store_name = "a<b" ∧
    ({ baseInvoice "bad" InvoiceStatus.pending with
        store_name := "a<b"
        items := [emptyItem] } : Invoice).items ≠ [] ∧
    countIn '<' (build_xml { baseInvoice "bad" InvoiceStatus.pending with
        store_name := "a<b"
        items := [emptyItem] }) ≠
      countIn '>' (build_xml { baseInvoice "bad" InvoiceStatus.pending with
        store_name := "a<b"
        items := [emptyItem] }) := by
  refine ⟨rfl, by decide, by set_option maxRecDepth 10000 in decide⟩

/-- C8 amended: `build_xml` applies no escaping; its output is
balanced (as many `<` as `>`) exactly when the spliced text fields
contain no `<`/`>` themselves — for every invoice (any number of
items) whose interpolated fields are free of `<` and `>`, the output
has equally many `<` and `>`. -/
theorem build_xml_balanced (inv : Invoice) (h : cleanInvoice inv) :
    countIn '<' (build_xml inv) = countIn '>' (build_xml inv) := by
  obtain ⟨h1, h2, h3, h4, h5, h6, h7, h8, hitems⟩ := h
  rw [countIn_build_xml '<' inv, countIn_build_xml '>' inv, h1.1, h1.2, h2.1, h2.2, h3.1,
    h3.2, h4.1, h4.2, h5.1, h5.2, h6.1, h6.2, h7.1, h7.2, h8.1, h8.2]
  have hemp : countIn '<' (build_xml emptyFieldsInvoice) =
      countIn '>' (build_xml emptyFieldsInvoice) := by
    set_option maxRecDepth 10000 in decide
  have hsum : ((inv.items.map (fun it => countIn '<' (invoice_line_xml it))).sum) =
      ((inv.items.map (fun it => countIn '>' (invoice_line_xml it))).sum) := by
    revert hitems
    generalize inv.items = L
    intro hitems
    induction L with
    | nil => rfl
    | cons a l ih =>
      simp only [List.map_cons, List.sum_cons]
      rw [invoice_line_balanced a (hitems a (by simp)),
        ih (fun it hit => hitems it (by simp [hit]))]
  omega

/-- A populated clean item. -/
def w8item : InvoiceItem :=
  { id := "i1", item_name := "Widget", quantity := "2", price := "10.00", tax := "1.50" }

/-- Witness for `build_xml_balanced`: a populated invoice with one
item, all fields clean. -/
theorem build_xml_balanced_witness :
    cleanInvoice { baseInvoice "w8" InvoiceStatus.pending with items := [w8item] } ∧
    countIn '<' (build_xml { baseInvoice "w8" InvoiceStatus.pending with items := [w8item] }) =
      countIn '>' (build_xml { baseInvoice "w8" InvoiceStatus.pending with
        items := [w8item] }) :=
  ⟨by decide, build_xml_balanced _ (by decide)⟩

end Zatca
